import Mathlib

/-!
Verification of the measurement-record filtering/sorting/export pipeline of
the Cloudflare-Clean-IP-Scanner repository (utils/csv.go), via a shallow
embedding in Lean 4.

Modelling conventions:
- Go float32/float64 fields (lossRate, DownloadSpeed, InputMaxLossRate) are
  modelled as Rat; every comparison and division appearing in the claims is
  exact at the concrete values involved.
- Go time.Duration is int64 nanoseconds, modelled as Int.
- A Go *net.IPAddr is modelled as Option String: none models a nil pointer,
  some s models a non-nil address whose String() method renders as s.
- Go integer division truncates toward zero, modelled by Int.tdiv.
- Functions that mutate through a pointer receiver are modelled by returning
  the updated record next to their result.
-/

/-- Record type of utils/csv.go: struct PingData embedded in CloudflareIPData.
The embedded pointer *PingData is flattened into the record; lossRate is the
cached loss-rate field, zero-initialised like the Go field. -/
structure CloudflareIPData where
  ip : Option String
  sended : Int
  received : Int
  delay : Int
  lossRate : Rat
  downloadSpeed : Rat
deriving DecidableEq, Repr

/-- Duration of n milliseconds in nanoseconds, as in n * time.Millisecond. -/
def ms (n : Int) : Int := n * 1000000

/-- Constant maxDelay = 9999 * time.Millisecond of utils/csv.go. -/
def maxDelayConst : Int := ms 9999

/-- Constant minDelay = 0 * time.Millisecond of utils/csv.go. -/
def minDelayConst : Int := ms 0

/-- Constant maxLossRate float32 = 1.0 of utils/csv.go. -/
def maxLossRateConst : Rat := 1

/-- Go conversion int(f) of a float to int truncates toward zero; on the Rat
model this is truncating division of numerator by denominator. -/
def ratTrunc (q : Rat) : Int := q.num.tdiv (q.den : Int)

/-- Method getLossRate of utils/csv.go (lines 52-73). The receiver is a
pointer, so the call can write the cached lossRate field; the model returns
the float32 result next to the record as it is after the call.
Go source, branch by branch:
  if cf.Sended == 0 { return 0.0 }
  if cf.lossRate == 0.0 && cf.Received == 0 && cf.Sended > 0 { recalc }
  else if cf.Sended > 0 && (cf.Sended-cf.Received)/cf.Sended != int(cf.lossRate) { recalc }
  return cf.lossRate
where recalc sets cf.lossRate = float32(cf.Sended-cf.Received)/float32(cf.Sended),
and (cf.Sended-cf.Received)/cf.Sended is Go integer division. -/
def getLossRate (cf : CloudflareIPData) : Rat × CloudflareIPData :=
  if cf.sended = 0 then
    (0, cf)
  else if cf.lossRate = 0 ∧ cf.received = 0 ∧ 0 < cf.sended then
    let r := { cf with lossRate := ((cf.sended - cf.received : Int) : Rat) / ((cf.sended : Int) : Rat) }
    (r.lossRate, r)
  else if 0 < cf.sended ∧ (cf.sended - cf.received).tdiv cf.sended ≠ ratTrunc cf.lossRate then
    let r := { cf with lossRate := ((cf.sended - cf.received : Int) : Rat) / ((cf.sended : Int) : Rat) }
    (r.lossRate, r)
  else
    (cf.lossRate, cf)

/-- Record with Sended = 0, as produced for an address that was never probed. -/
def recNoSent : CloudflareIPData :=
  { ip := some "1.2.3.4", sended := 0, received := 0, delay := 0, lossRate := 0, downloadSpeed := 0 }

/-- Record with Sended = 4, Received = 2 and the cached lossRate field still at
its zero initial value: half the probes were lost. -/
def recStale : CloudflareIPData :=
  { ip := some "1.0.0.1", sended := 4, received := 2, delay := ms 100, lossRate := 0, downloadSpeed := 0 }

/-- C1: the claim says getLossRate returns 1.0 when sent == 0. On the code it
returns 0.0 there: evaluating the embedded getLossRate at a record with
Sended = 0 yields 0, not 1. -/
theorem getLossRate_sentZero_returns_zero :
    (getLossRate recNoSent).1 = 0 ∧ (getLossRate recNoSent).1 ≠ 1 := by
  decide

/-- C2: the claim says getLossRate returns (sent - received) / sent whenever
sent is positive and the division is meaningful. At Sended = 4, Received = 2
with the cache unset the code returns 0.0 instead of 1/2: the recalculation
guard compares the Go integer quotient (4-2)/4 = 0 with int(0.0) = 0 and
concludes nothing needs recomputing. -/
theorem getLossRate_staleCache_returns_zero :
    (getLossRate recStale).1 = 0 ∧
      ((recStale.sended - recStale.received : Int) : Rat) / ((recStale.sended : Int) : Rat) = 1/2 := by
  constructor
  · decide
  · norm_num [recStale]

/-- Loop body of FilterDelay (utils/csv.go lines 152-162). Go iterates with
for _, v := range s, so v is a copy of each slice element; the loop reads
v.Delay only and never writes through to s. The model returns the appended
output next to the input slice as the loop leaves it, element by element.
An element with Delay above InputMaxDelay or below InputMinDelay is skipped
with continue; otherwise it is appended. -/
def filterDelayLoop (inMax inMin : Int) : List CloudflareIPData → List CloudflareIPData × List CloudflareIPData
  | [] => ([], [])
  | v :: rest =>
    let r := filterDelayLoop inMax inMin rest
    if v.delay > inMax then (r.1, v :: r.2)
    else if v.delay < inMin then (r.1, v :: r.2)
    else (v :: r.1, v :: r.2)

/-- Method FilterDelay of utils/csv.go (lines 145-163), with the globals
InputMaxDelay and InputMinDelay passed as parameters. Out-of-range or
default bounds return the input unchanged; otherwise the loop output. -/
def FilterDelay (inMax inMin : Int) (s : List CloudflareIPData) : List CloudflareIPData :=
  if inMax > maxDelayConst ∨ inMin < minDelayConst then s
  else if inMax = maxDelayConst ∧ inMin = minDelayConst then s
  else (filterDelayLoop inMax inMin s).1

/-- The input slice as FilterDelay leaves it: the no-op branches return it
untouched, and otherwise the loop iterates over copies. -/
def FilterDelayPost (inMax inMin : Int) (s : List CloudflareIPData) : List CloudflareIPData :=
  if inMax > maxDelayConst ∨ inMin < minDelayConst then s
  else if inMax = maxDelayConst ∧ inMin = minDelayConst then s
  else (filterDelayLoop inMax inMin s).2

/-- Loop body of FilterLossRate (utils/csv.go lines 170-177). The iteration
variable v is a copy; v.getLossRate() can write the cached lossRate of the
copy, and the loop then appends that copy, so the appended element is the
record as getLossRate leaves it. The loop breaks at the first element whose
loss rate exceeds the ceiling. The second component is the input slice as
the loop leaves it. -/
def filterLossLoop (inMaxLR : Rat) : List CloudflareIPData → List CloudflareIPData × List CloudflareIPData
  | [] => ([], [])
  | v :: rest =>
    if (getLossRate v).1 > inMaxLR then ([], v :: rest)
    else
      let r := filterLossLoop inMaxLR rest
      ((getLossRate v).2 :: r.1, v :: r.2)

/-- Method FilterLossRate of utils/csv.go (lines 166-178), with the global
InputMaxLossRate passed as a parameter. -/
def FilterLossRate (inMaxLR : Rat) (s : List CloudflareIPData) : List CloudflareIPData :=
  if inMaxLR ≥ maxLossRateConst then s
  else (filterLossLoop inMaxLR s).1

/-- The input slice as FilterLossRate leaves it. -/
def FilterLossRatePost (inMaxLR : Rat) (s : List CloudflareIPData) : List CloudflareIPData :=
  if inMaxLR ≥ maxLossRateConst then s
  else (filterLossLoop inMaxLR s).2

/-- The delay-filter loop keeps exactly the elements whose delay lies in the
inclusive window, in order: Go's continue statements skip and never break. -/
theorem filterDelayLoop_eq_filter (inMax inMin : Int) (s : List CloudflareIPData) :
    (filterDelayLoop inMax inMin s).1
      = s.filter (fun v => decide (inMin ≤ v.delay ∧ v.delay ≤ inMax)) := by
  induction s with
  | nil => rfl
  | cons v rest ih =>
    by_cases h1 : v.delay > inMax
    · have : ¬ (inMin ≤ v.delay ∧ v.delay ≤ inMax) := by omega
      simp [filterDelayLoop, h1, ih, List.filter_cons, this]
    · by_cases h2 : v.delay < inMin
      · have : ¬ (inMin ≤ v.delay ∧ v.delay ≤ inMax) := by omega
        simp [filterDelayLoop, h1, h2, ih, List.filter_cons, this]
      · have : inMin ≤ v.delay ∧ v.delay ≤ inMax := by omega
        simp [filterDelayLoop, h1, h2, ih, List.filter_cons, this]

/-- C5: with the in-range non-default bounds minDelay = 50 ms and
maxDelay = 200 ms, FilterDelay keeps exactly the records whose delay lies in
the inclusive window, and on a delay-ascending sequence realising
10, 60, 150, 300 ms it yields the records with 60 and 150 ms, in order. -/
theorem filterDelay_window :
    (∀ s : List CloudflareIPData,
        FilterDelay (ms 200) (ms 50) s
          = s.filter (fun v => decide (ms 50 ≤ v.delay ∧ v.delay ≤ ms 200)))
    ∧ (∀ r1 r2 r3 r4 : CloudflareIPData,
        r1.delay = ms 10 → r2.delay = ms 60 → r3.delay = ms 150 → r4.delay = ms 300 →
        FilterDelay (ms 200) (ms 50) [r1, r2, r3, r4] = [r2, r3]) := by
  have hbranch : ∀ s : List CloudflareIPData,
      FilterDelay (ms 200) (ms 50) s = (filterDelayLoop (ms 200) (ms 50) s).1 := by
    intro s
    have h1 : ¬ (ms 200 > maxDelayConst ∨ ms 50 < minDelayConst) := by
      simp [ms, maxDelayConst, minDelayConst]
    have h2 : ¬ (ms 200 = maxDelayConst ∧ ms 50 = minDelayConst) := by
      simp [ms, maxDelayConst, minDelayConst]
    simp [FilterDelay, h1, h2]
  constructor
  · intro s
    rw [hbranch, filterDelayLoop_eq_filter]
  · intro r1 r2 r3 r4 h1 h2 h3 h4
    rw [hbranch, filterDelayLoop_eq_filter]
    have e1 : ¬ (ms 50 ≤ r1.delay ∧ r1.delay ≤ ms 200) := by rw [h1]; decide
    have e2 : ms 50 ≤ r2.delay ∧ r2.delay ≤ ms 200 := by rw [h2]; decide
    have e3 : ms 50 ≤ r3.delay ∧ r3.delay ≤ ms 200 := by rw [h3]; decide
    have e4 : ¬ (ms 50 ≤ r4.delay ∧ r4.delay ≤ ms 200) := by rw [h4]; decide
    simp [List.filter_cons, e1, e2, e3, e4]

/-- Records used to instantiate the filter theorems at concrete inputs. -/
def recD10 : CloudflareIPData :=
  { ip := some "104.16.0.1", sended := 4, received := 4, delay := ms 10, lossRate := 0, downloadSpeed := 0 }

def recD60 : CloudflareIPData :=
  { ip := some "104.16.0.2", sended := 4, received := 4, delay := ms 60, lossRate := 0, downloadSpeed := 0 }

def recD150 : CloudflareIPData :=
  { ip := some "104.16.0.3", sended := 4, received := 4, delay := ms 150, lossRate := 0, downloadSpeed := 0 }

def recD300 : CloudflareIPData :=
  { ip := some "104.16.0.4", sended := 4, received := 4, delay := ms 300, lossRate := 0, downloadSpeed := 0 }

/-- Witness for C5 at the concrete records with delays 10, 60, 150, 300 ms. -/
theorem filterDelay_window_witness :
    FilterDelay (ms 200) (ms 50) [recD10, recD60, recD150, recD300] = [recD60, recD150] :=
  filterDelay_window.2 recD10 recD60 recD150 recD300 rfl rfl rfl rfl

/-- C7: FilterDelay is a no-op returning the input unchanged when either bound
is out of range (max above the 9999 ms ceiling or min below zero) or both
bounds equal their defaults (min 0, max 9999 ms); the fallback is ordinary
control flow, not an error path. -/
theorem filterDelay_noop (inMax inMin : Int) (s : List CloudflareIPData)
    (h : (inMax > maxDelayConst ∨ inMin < minDelayConst)
        ∨ (inMax = maxDelayConst ∧ inMin = minDelayConst)) :
    FilterDelay inMax inMin s = s := by
  rcases h with h | h
  · simp only [FilterDelay]
    rw [if_pos h]
  · obtain ⟨h1, h2⟩ := h
    subst h1; subst h2
    simp [FilterDelay]

/-- Witness for C7 at the default bounds on a concrete record. -/
theorem filterDelay_noop_witness :
    FilterDelay maxDelayConst minDelayConst [recD10] = [recD10] :=
  filterDelay_noop maxDelayConst minDelayConst [recD10] (Or.inr ⟨rfl, rfl⟩)

/-- C9: the input sequence is exactly what it was after either filter runs:
both loops iterate over copies of the slice elements, so no field of any
input record, the cached loss rate included, is written. -/
theorem filters_do_not_mutate_input (inMax inMin : Int) (inMaxLR : Rat)
    (s : List CloudflareIPData) :
    FilterDelayPost inMax inMin s = s ∧ FilterLossRatePost inMaxLR s = s := by
  have hd : ∀ t : List CloudflareIPData, (filterDelayLoop inMax inMin t).2 = t := by
    intro t
    induction t with
    | nil => rfl
    | cons v rest ih =>
      by_cases h1 : v.delay > inMax
      · simp [filterDelayLoop, h1, ih]
      · by_cases h2 : v.delay < inMin
        · simp [filterDelayLoop, h1, h2, ih]
        · simp [filterDelayLoop, h1, h2, ih]
  have hl : ∀ t : List CloudflareIPData, (filterLossLoop inMaxLR t).2 = t := by
    intro t
    induction t with
    | nil => rfl
    | cons v rest ih =>
      by_cases h1 : (getLossRate v).1 > inMaxLR
      · simp [filterLossLoop, h1]
      · simp [filterLossLoop, h1, ih]
  constructor
  · by_cases h1 : inMax > maxDelayConst ∨ inMin < minDelayConst
    · simp [FilterDelayPost, h1]
    · by_cases h2 : inMax = maxDelayConst ∧ inMin = minDelayConst
      · simp [FilterDelayPost, h1, h2]
      · simp [FilterDelayPost, h1, h2, hd]
  · by_cases h1 : inMaxLR ≥ maxLossRateConst
    · simp [FilterLossRatePost, h1]
    · simp [FilterLossRatePost, h1, hl]

/-- Unfolding of the loss-filter loop on a kept element. -/
theorem filterLossLoop_cons_keep (q : Rat) (v : CloudflareIPData)
    (rest : List CloudflareIPData) (h : ¬ ((getLossRate v).1 > q)) :
    filterLossLoop q (v :: rest)
      = ((getLossRate v).2 :: (filterLossLoop q rest).1, v :: (filterLossLoop q rest).2) := by
  simp [filterLossLoop, h]

/-- Unfolding of the loss-filter loop at the breaking element. -/
theorem filterLossLoop_cons_break (q : Rat) (v : CloudflareIPData)
    (rest : List CloudflareIPData) (h : (getLossRate v).1 > q) :
    filterLossLoop q (v :: rest) = ([], v :: rest) := by
  simp [filterLossLoop, h]

/-- C3: with ceiling 1/10 (below the no-op sentinel 1.0), FilterLossRate on a
loss-ascending sequence keeps exactly the leading records whose loss rate does
not exceed the ceiling, and on records realising the rates 0, 1/20, 1/5, 3/10
it returns the first two records only. -/
theorem filterLossRate_leading :
    (∀ s : List CloudflareIPData,
        List.Pairwise (fun a b => (getLossRate a).1 ≤ (getLossRate b).1) s →
        FilterLossRate (1/10) s
          = (s.filter (fun v => decide ((getLossRate v).1 ≤ 1/10))).map
              (fun v => (getLossRate v).2))
    ∧ (∀ r1 r2 r3 r4 : CloudflareIPData,
        getLossRate r1 = (0, r1) → getLossRate r2 = (mkRat 1 20, r2) →
        getLossRate r3 = (mkRat 1 5, r3) → getLossRate r4 = (mkRat 3 10, r4) →
        FilterLossRate (1/10) [r1, r2, r3, r4] = [r1, r2]) := by
  have hno : ¬ ((1/10 : Rat) ≥ maxLossRateConst) := by
    simp [maxLossRateConst]
    norm_num
  have key : ∀ (q : Rat) (t : List CloudflareIPData),
      List.Pairwise (fun a b => (getLossRate a).1 ≤ (getLossRate b).1) t →
      (filterLossLoop q t).1
        = (t.filter (fun v => decide ((getLossRate v).1 ≤ q))).map
            (fun v => (getLossRate v).2) := by
    intro q t hp
    induction t with
    | nil => rfl
    | cons v rest ih =>
      rcases List.pairwise_cons.mp hp with ⟨hv, hrest⟩
      by_cases h1 : (getLossRate v).1 > q
      · have hall : ∀ w ∈ rest, ¬ ((getLossRate w).1 ≤ q) := by
          intro w hw hle
          exact absurd (le_trans (hv w hw) hle) (not_le.mpr h1)
        have hfil : rest.filter (fun v => decide ((getLossRate v).1 ≤ q)) = [] := by
          rw [List.filter_eq_nil_iff]
          intro w hw
          simpa using hall w hw
        simp [filterLossLoop, h1, List.filter_cons, not_le.mpr h1, hfil]
      · simp [filterLossLoop, h1, List.filter_cons, not_lt.mp h1, ih hrest]
  constructor
  · intro s hp
    simp only [FilterLossRate]
    rw [if_neg hno, key _ s hp]
  · intro r1 r2 r3 r4 h1 h2 h3 h4
    have c1 : ¬ ((getLossRate r1).1 > (1/10 : Rat)) := by rw [h1]; norm_num
    have c2 : ¬ ((getLossRate r2).1 > (1/10 : Rat)) := by rw [h2]; norm_num [Rat.mkRat_eq_div]
    have c3 : (getLossRate r3).1 > (1/10 : Rat) := by rw [h3]; norm_num [Rat.mkRat_eq_div]
    simp only [FilterLossRate]
    rw [if_neg hno]
    rw [filterLossLoop_cons_keep _ _ _ c1, filterLossLoop_cons_keep _ _ _ c2,
        filterLossLoop_cons_break _ _ _ c3]
    simp [h1, h2]

/-- Record realising loss rate 0: every probe answered, cache consistent. -/
def recL0 : CloudflareIPData :=
  { ip := some "172.64.0.1", sended := 10, received := 10, delay := ms 20, lossRate := 0, downloadSpeed := 0 }

/-- Record realising loss rate 1/20. -/
def recL05 : CloudflareIPData :=
  { ip := some "172.64.0.2", sended := 20, received := 19, delay := ms 30, lossRate := mkRat 1 20, downloadSpeed := 0 }

/-- Record realising loss rate 1/5. -/
def recL20 : CloudflareIPData :=
  { ip := some "172.64.0.3", sended := 5, received := 4, delay := ms 40, lossRate := mkRat 1 5, downloadSpeed := 0 }

/-- Record realising loss rate 3/10. -/
def recL30 : CloudflareIPData :=
  { ip := some "172.64.0.4", sended := 10, received := 7, delay := ms 50, lossRate := mkRat 3 10, downloadSpeed := 0 }

/-- Witness for C3 at records realising the rates 0, 1/20, 1/5, 3/10. -/
theorem filterLossRate_leading_witness :
    FilterLossRate (1/10) [recL0, recL05, recL20, recL30] = [recL0, recL05] :=
  filterLossRate_leading.2 recL0 recL05 recL20 recL30
    (by decide) (by decide) (by decide) (by decide)

/-- Function noOutput of utils/csv.go (lines 34-36), with the global Output
passed as a parameter: file output is suppressed for the empty path and for
the single-space sentinel path. -/
def noOutput (output : String) : Bool :=
  output == "" || output == " "

/-- The address cell used for a record: IP.String() for a non-nil pointer and
the literal N/A otherwise, as in utils/csv.go lines 78-82 and 105-109. -/
def ipString (cf : CloudflareIPData) : String :=
  match cf.ip with
  | some a => a
  | none => "N/A"

/-- Function convertToIPOnlyCsvData of utils/csv.go (lines 102-112): one row
per record, each row holding only the address cell. -/
def convertToIPOnlyCsvData (data : List CloudflareIPData) : List (List String) :=
  data.map (fun v => [ipString v])

/-- Field quoting test of the Go encoding/csv writer with the default comma
separator: quotes are required for the literal backslash-dot field, for
fields containing a comma, a double quote, a carriage return or a newline,
and for fields starting with white space. -/
def csvNeedsQuotes (f : String) : Bool :=
  f == "\\." ||
  f.toList.any (fun c => c == ',' || c == '"' || c == '\r' || c == '\n') ||
  (match f.toList with
   | [] => false
   | c :: _ => c == ' ' || c == '\t' || c == '\r' || c == '\n' || c == '\x0b' || c == '\x0c')

/-- A field as the Go encoding/csv writer emits it when quoting is required:
wrapped in double quotes with inner double quotes doubled. -/
def csvQuoteField (f : String) : String :=
  "\"" ++ String.join (f.toList.map (fun c => if c == '"' then "\"\"" else String.singleton c)) ++ "\""

/-- A field as the Go encoding/csv writer emits it. -/
def csvEncodeField (f : String) : String :=
  if csvNeedsQuotes f then csvQuoteField f else f

/-- One record line as the Go encoding/csv writer emits it with the default
comma separator and UseCRLF false: fields joined by commas, then a newline. -/
def csvWriteRow (row : List String) : String :=
  String.intercalate "," (row.map csvEncodeField) ++ "\n"

/-- WriteAll of the Go encoding/csv writer: one line per row, in order. -/
def csvWriteAll (rows : List (List String)) : List String :=
  rows.map csvWriteRow

/-- Function ExportCsv of utils/csv.go (lines 115-139), with the global Output
passed as a parameter. The model yields the list of lines written to the
created file: none models the no-op branch where no file is created and no
error is raised; some lines models a created (or truncated) file holding
exactly those lines and nothing else, no header row included. -/
def ExportCsv (output : String) (data : List CloudflareIPData) : Option (List String) :=
  if noOutput output || data.length == 0 then none
  else some (csvWriteAll (convertToIPOnlyCsvData data))

/-- C4: for a non-blank destination and a non-empty collection whose records
all carry a valid address needing no CSV quoting, ExportCsv writes exactly
one line per record, each line being the address string followed by the
newline terminator, with no header row and no other field. -/
theorem exportCsv_writes_address_lines (output : String) (data : List CloudflareIPData)
    (hout1 : output ≠ "") (hout2 : output ≠ " ") (hdata : data ≠ [])
    (hip : ∀ r ∈ data, ∃ a, r.ip = some a ∧ csvNeedsQuotes a = false) :
    ExportCsv output data = some (data.map (fun r => ipString r ++ "\n"))
      ∧ (data.map (fun r => ipString r ++ "\n")).length = data.length := by
  have hno : noOutput output = false := by
    simp [noOutput, hout1, hout2]
  have hlen : (data.length == 0) = false := by
    simp [List.length_eq_zero, hdata]
  refine ⟨?_, by simp⟩
  simp only [ExportCsv, hno, hlen, Bool.or_self, Bool.false_or, Bool.or_false, if_neg,
    Bool.false_eq_true, not_false_eq_true]
  congr 1
  simp only [csvWriteAll, convertToIPOnlyCsvData, List.map_map]
  apply List.map_congr_left
  intro r hr
  obtain ⟨a, ha, hq⟩ := hip r hr
  simp [Function.comp, csvWriteRow, csvEncodeField, ipString, ha, hq,
    String.intercalate, String.intercalate.go]

/-- Witness for C4 at a one-record collection and destination out.txt. -/
theorem exportCsv_writes_address_lines_witness :
    ExportCsv "out.txt" [recL0] = some (([recL0]).map (fun r => ipString r ++ "\n"))
      ∧ (([recL0]).map (fun r => ipString r ++ "\n")).length = ([recL0] : List CloudflareIPData).length :=
  exportCsv_writes_address_lines "out.txt" [recL0]
    (by decide) (by decide) (by decide)
    (by intro r hr
        simp only [List.mem_singleton] at hr
        subst hr
        exact ⟨"172.64.0.1", rfl, by decide⟩)

/-- C8: ExportCsv is a no-op creating no file and raising no error when the
destination is the empty path or the single-space sentinel, or the record
collection is empty. -/
theorem exportCsv_noop (output : String) (data : List CloudflareIPData)
    (h : output = "" ∨ output = " " ∨ data = []) :
    ExportCsv output data = none := by
  rcases h with h | h | h
  · simp [ExportCsv, noOutput, h]
  · simp [ExportCsv, noOutput, h]
  · simp [ExportCsv, h]

/-- Witness for C8 at the single-space sentinel path. -/
theorem exportCsv_noop_witness : ExportCsv " " [recL0] = none :=
  exportCsv_noop " " [recL0] (Or.inr (Or.inl rfl))

/-- Comparator Less of PingDelaySet (utils/csv.go lines 183-189), expressed on
the two records compared: if the two loss rates differ the lower one wins,
otherwise the lower average delay wins. Go evaluates
s[i].getLossRate() and s[j].getLossRate(); the comparator value depends only
on the returned rates and the two Delay fields. -/
def pingLess (a b : CloudflareIPData) : Bool :=
  if (getLossRate a).1 ≠ (getLossRate b).1 then
    decide ((getLossRate a).1 < (getLossRate b).1)
  else
    decide (a.delay < b.delay)

/-- Insertion step of a comparison sort driven by pingLess. -/
def insertByLess (v : CloudflareIPData) : List CloudflareIPData → List CloudflareIPData
  | [] => [v]
  | w :: rest => if pingLess v w then v :: w :: rest else w :: insertByLess v rest

/-- Comparison sort driven by pingLess, modelling sort.Sort over a
PingDelaySet: on pairwise strictly ordered keys every comparison sort
produces the same, unique sorted arrangement. -/
def sortByLess (l : List CloudflareIPData) : List CloudflareIPData :=
  l.foldr insertByLess []

/-- Record with loss rate 1/5 and delay 50 ms. -/
def recS1 : CloudflareIPData :=
  { ip := some "188.114.96.1", sended := 5, received := 4, delay := ms 50, lossRate := mkRat 1 5, downloadSpeed := 0 }

/-- Record with loss rate 1/10 and delay 999 ms. -/
def recS2 : CloudflareIPData :=
  { ip := some "188.114.96.2", sended := 10, received := 9, delay := ms 999, lossRate := mkRat 1 10, downloadSpeed := 0 }

/-- Record with loss rate 1/10 and delay 10 ms. -/
def recS3 : CloudflareIPData :=
  { ip := some "188.114.96.3", sended := 10, received := 9, delay := ms 10, lossRate := mkRat 1 10, downloadSpeed := 0 }

/-- C6: sorting the records with keys (loss 1/5, delay 50 ms),
(loss 1/10, delay 999 ms), (loss 1/10, delay 10 ms) under the PingDelaySet
order yields (1/10, 10 ms), (1/10, 999 ms), (1/5, 50 ms): the result is a
permutation of the input that is strictly ascending under the comparator. -/
theorem pingDelayOrder_example :
    sortByLess [recS1, recS2, recS3] = [recS3, recS2, recS1]
    ∧ List.Pairwise (fun x y => pingLess x y = true) [recS3, recS2, recS1]
    ∧ ([recS3, recS2, recS1] : List CloudflareIPData).Perm [recS1, recS2, recS3] := by
  refine ⟨by decide, by decide, ?_⟩
  decide

/-- Two-decimal fixed-point rendering modelling the Go verb with two decimal
places used in toString: the value times 100 rounded to the nearest integer
and printed with two digits after the point. Go rounds a tie on the binary
float half to even; no claim settled here depends on the rounding of a tie. -/
def fmtF2 (q : Rat) : String :=
  let n : Int := round (q * 100)
  let sign := if n < 0 then "-" else ""
  let a := n.natAbs
  sign ++ toString (a / 100) ++ "." ++ (if a % 100 < 10 then "0" else "") ++ toString (a % 100)

/-- Method toString of utils/csv.go (lines 76-89): the six console cells of a
record, in order the address, the sent count, the received count, the loss
rate as a two-decimal percentage, the delay in whole milliseconds
(Duration.Milliseconds truncates toward zero) and the download speed with
two decimals. The receiver of the Go getLossRate call inside is a copy made
by the range loop of convertToString, so only the returned value matters. -/
def toStringRow (cf : CloudflareIPData) : List String :=
  [ ipString cf,
    toString cf.sended,
    toString cf.received,
    fmtF2 ((getLossRate cf).1 * 100) ++ "%",
    toString (cf.delay.tdiv 1000000) ++ "ms",
    fmtF2 cf.downloadSpeed ]

/-- Function convertToString of utils/csv.go (lines 92-98). -/
def convertToString (data : List CloudflareIPData) : List (List String) :=
  data.map toStringRow

/-- The local variable displayCount of Print: PrintNum, lowered to the row
count when the collection is shorter. -/
def displayCountOf (lenRows : Nat) (printNum : Int) : Int :=
  if (lenRows : Int) < printNum then (lenRows : Int) else printNum

/-- Method Print of DownloadSpeedSet (utils/csv.go lines 207-268), with the
global PrintNum threaded through explicitly: the second component is the
value of PrintNum after the call. The first component is the list of data
rows the table body prints: the clamp lives in the local displayCount and
the loop prints a row only when it carries the six expected cells. The
header line, the column-width switch for long addresses and the trailing
output notice affect layout only and carry no record data. -/
def PrintGo (s : List CloudflareIPData) (printNum : Int) : List (List String) × Int :=
  if printNum = 0 then ([], printNum)
  else if s.length ≤ 0 then ([], printNum)
  else if displayCountOf (convertToString s).length printNum = 0 ∧ 0 < s.length then ([], printNum)
  else (((convertToString s).take (displayCountOf (convertToString s).length printNum).toNat).filter
          (fun row => row.length == 6), printNum)

/-- C10: Print never writes the global print limit: PrintNum after a call
equals PrintNum before it, a later call on any other collection renders
exactly the rows it would have rendered with the originally configured
limit (so two calls on the same input render the same rows), and when
printing happens at all the rendered row count is the collection size
clamped by the limit through the local variable. -/
theorem print_preserves_printNum (s : List CloudflareIPData) (p : Int) :
    (PrintGo s p).2 = p
    ∧ (∀ s2, (PrintGo s2 (PrintGo s p).2).1 = (PrintGo s2 p).1)
    ∧ (p ≠ 0 → s ≠ [] → ((PrintGo s p).1).length = min s.length p.toNat) := by
  have hstate : ∀ (t : List CloudflareIPData) (q : Int), (PrintGo t q).2 = q := by
    intro t q
    unfold PrintGo
    repeat' split
    all_goals rfl
  refine ⟨hstate s p, ?_, ?_⟩
  · intro s2
    rw [hstate s p]
  · intro hp hs
    have hlen0 : 0 < s.length := List.length_pos.mpr hs
    have hlenrows : (convertToString s).length = s.length := by
      simp [convertToString]
    have hdc : displayCountOf (convertToString s).length p ≠ 0 := by
      rw [hlenrows]
      unfold displayCountOf
      split <;> omega
    unfold PrintGo
    rw [if_neg hp, if_neg (by omega), if_neg (by exact fun h => hdc h.1)]
    have hall : ∀ row ∈ (convertToString s).take (displayCountOf (convertToString s).length p).toNat,
        (row.length == 6) = true := by
      intro row hrow
      have hmem : row ∈ convertToString s := List.take_subset _ _ hrow
      obtain ⟨cf, _, rfl⟩ := List.mem_map.mp hmem
      rfl
    rw [List.filter_eq_self.mpr hall, List.length_take, hlenrows]
    unfold displayCountOf
    split <;> omega

/-- Witness for C10 at a one-record collection and limit 3. -/
theorem print_preserves_printNum_witness :
    (PrintGo [recL0] 3).2 = 3 ∧ ((PrintGo [recL0] 3).1).length = min 1 (Int.toNat 3) :=
  ⟨(print_preserves_printNum [recL0] 3).1,
   by
     have h := (print_preserves_printNum [recL0] 3).2.2 (by decide) (by simp)
     simpa using h⟩
